import Mathlib

/-!
Shallow embedding of the serde-derived wire model in `src/models.rs` of the
`mcp-model` repository, together with proofs about its encode/decode contract.

JSON values are modelled by the inductive `Json` (numbers as rationals, which
is exact for every finite number the wire format carries; objects as
association lists in writing order).  Each Rust struct/enum becomes a Lean
structure/inductive with the same fields, and `encodeX` / `decodeX` mirror the
behaviour of the derived `Serialize` / `Deserialize` implementations:

* struct fields are written in declaration order under their wire keys
  (`#[serde(rename = "_meta")]` is the only rename);
* an `Option` field is written as an explicit JSON `null` when absent (the
  source carries no `skip_serializing_if` attribute);
* on decode, a missing key for an `Option` field and an explicit `null` both
  yield the absent state, a missing key for a required field is a
  `missingField` error, a wrongly shaped value is an `invalidType` error;
* unknown keys are ignored on decode;
* the `ContentType` union is internally tagged by the `"type"` key
  (`#[serde(tag = "type")]`), with the variant's fields flattened alongside
  the tag; an unrecognized tag is an `unknownVariant` error;
* `Role` is wire-encoded by `#[serde(rename_all = "lowercase")]`;
* a Rust `f32` is modelled by `F32`, keeping the non-finite values NaN and
  the infinities distinct from finite numbers, because serde_json writes a
  non-finite float as `null`; a present non-finite `priority` therefore
  collapses to the absent state on a round trip, exactly like a
  `returns: Some(Value::Null)` on a `Tool`.
-/

/-- JSON-like wire values.  Objects are association lists of key/value pairs
in writing order. -/
inductive Json where
  | null : Json
  | bool (b : Bool) : Json
  | num (q : ℚ) : Json
  | str (s : String) : Json
  | arr (xs : List Json) : Json
  | obj (fields : List (String × Json)) : Json

/-- Structured decode failures, mirroring the error classes the serde-derived
deserializers produce. -/
inductive DecodeError where
  | missingField (name : String) : DecodeError
  | unknownVariant (tag : String) : DecodeError
  | invalidType (expected : String) : DecodeError
deriving DecidableEq, Repr

/-- Keys of a JSON object (empty for non-objects). -/
def Json.objKeys : Json → List String
  | .obj fs => fs.map Prod.fst
  | _ => []

/-- Look up the first occurrence of a key in an object's field list. -/
def getField (fs : List (String × Json)) (k : String) : Option Json :=
  match fs with
  | [] => none
  | (k', v) :: rest => if k' = k then some v else getField rest k

/-- Decode a field that is required on the wire: a missing key is a
`missingField` error, a present value is decoded with `dec`. -/
def decodeReqField (dec : Json → Except DecodeError α) (name : String) :
    Option Json → Except DecodeError α
  | none => .error (.missingField name)
  | some j => dec j

/-- Whether a JSON value is the `null` value. -/
def Json.isNull : Json → Bool
  | .null => true
  | _ => false

/-- Decode an `Option` field the way serde does: a missing key and an explicit
`null` both give the absent state, anything else is decoded with `dec`. -/
def decodeOptField (dec : Json → Except DecodeError α) :
    Option Json → Except DecodeError (Option α)
  | none => .ok none
  | some j => cond j.isNull (.ok none) ((dec j).map some)

/-- Encode an `Option` field the way the derived `Serialize` does: the absent
state becomes an explicit `null` (the source has no `skip_serializing_if`). -/
def encodeOpt (enc : α → Json) : Option α → Json
  | none => .null
  | some v => enc v

def decodeString : Json → Except DecodeError String
  | .str s => .ok s
  | _ => .error (.invalidType "string")

def decodeBoolean : Json → Except DecodeError Bool
  | .bool b => .ok b
  | _ => .error (.invalidType "boolean")

/-- Model of a Rust `f32` value: either a finite number (every finite float
is exactly representable as a rational) or one of the non-finite values NaN,
+infinity, -infinity.  serde_json serializes a non-finite float as `null`
and parses a JSON number back into a float, so the non-finite values cannot
survive a round trip through the wire format. -/
inductive F32 where
  | finite (q : ℚ) : F32
  | nan : F32
  | posInf : F32
  | negInf : F32
deriving DecidableEq, Repr

/-- Whether an `f32` value is finite (serializable as a JSON number). -/
def F32.isFinite : F32 → Bool
  | .finite _ => true
  | _ => false

/-- serde_json writes a finite float as a number and a non-finite float
(NaN, +infinity, -infinity) as `null`. -/
def encodeF32 : F32 → Json
  | .finite q => .num q
  | _ => .null

/-- A float field parses from a JSON number; any other shape is a type
error.  (A `null` under an `Option<f32>` field never reaches this decoder:
the `Option` layer maps it to the absent state first.) -/
def decodeF32 : Json → Except DecodeError F32
  | .num q => .ok (.finite q)
  | _ => .error (.invalidType "number")

/-- A `serde_json::Value` field accepts any JSON value verbatim. -/
def decodeValue : Json → Except DecodeError Json := .ok

/-- Decode each element of a JSON array list, left to right. -/
def decodeElems (dec : Json → Except DecodeError α) :
    List Json → Except DecodeError (List α)
  | [] => .ok []
  | j :: js => do
      let a ← dec j
      let as ← decodeElems dec js
      .ok (a :: as)

/-- Decode a `Vec<T>` field: the value must be a JSON array. -/
def decodeArray (dec : Json → Except DecodeError α) :
    Json → Except DecodeError (List α)
  | .arr xs => decodeElems dec xs
  | _ => .error (.invalidType "array")

/-- A `HashMap<String, serde_json::Value>` is modelled as an association
list; decoding requires a JSON object and takes its fields verbatim. -/
def decodeValueMap : Json → Except DecodeError (List (String × Json))
  | .obj fs => .ok fs
  | _ => .error (.invalidType "map")

def encodeValueMap (m : List (String × Json)) : Json := .obj m

/-- Entries of a `HashMap<String, HashMap<String, Value>>`: each value must
itself be a JSON object. -/
def decodeInnerMaps :
    List (String × Json) → Except DecodeError (List (String × List (String × Json)))
  | [] => .ok []
  | (k, j) :: rest =>
      match j with
      | .obj m => (decodeInnerMaps rest).map (fun r => (k, m) :: r)
      | _ => .error (.invalidType "map")

def decodeMapMap : Json → Except DecodeError (List (String × List (String × Json)))
  | .obj fs => decodeInnerMaps fs
  | _ => .error (.invalidType "map")

def encodeMapMap (m : List (String × List (String × Json))) : Json :=
  .obj (m.map fun p => (p.1, Json.obj p.2))

/-- `Role`, a closed enumeration, wire-encoded lowercase by
`#[serde(rename_all = "lowercase")]`. -/
inductive Role where
  | User : Role
  | Assistant : Role
  | System : Role
deriving DecidableEq, Repr

def encodeRole : Role → Json
  | .User => .str "user"
  | .Assistant => .str "assistant"
  | .System => .str "system"

def decodeRole : Json → Except DecodeError Role
  | .str s =>
      if s = "user" then .ok .User
      else if s = "assistant" then .ok .Assistant
      else if s = "system" then .ok .System
      else .error (.unknownVariant s)
  | _ => .error (.invalidType "string")

/-- `Annotations { audience: Option<Vec<Role>>, priority: Option<f32> }`. -/
structure Annotations where
  audience : Option (List Role)
  priority : Option F32
deriving DecidableEq, Repr

def encodeAnnotations (a : Annotations) : Json :=
  .obj [("audience", encodeOpt (fun l => .arr (l.map encodeRole)) a.audience),
        ("priority", encodeOpt encodeF32 a.priority)]

def decodeAnnotations : Json → Except DecodeError Annotations
  | .obj fs => do
      let audience ← decodeOptField (decodeArray decodeRole) (getField fs "audience")
      let priority ← decodeOptField decodeF32 (getField fs "priority")
      .ok ⟨audience, priority⟩
  | _ => .error (.invalidType "object")

/-- `Resource { uri, name: Option, mime_type: Option, annotations: Option }`. -/
structure Resource where
  uri : String
  name : Option String
  mime_type : Option String
  annotations : Option Annotations
deriving DecidableEq, Repr

def encodeResource (r : Resource) : Json :=
  .obj [("uri", .str r.uri),
        ("name", encodeOpt Json.str r.name),
        ("mime_type", encodeOpt Json.str r.mime_type),
        ("annotations", encodeOpt encodeAnnotations r.annotations)]

def decodeResource : Json → Except DecodeError Resource
  | .obj fs => do
      let uri ← decodeReqField decodeString "uri" (getField fs "uri")
      let name ← decodeOptField decodeString (getField fs "name")
      let mime_type ← decodeOptField decodeString (getField fs "mime_type")
      let anns ← decodeOptField decodeAnnotations (getField fs "annotations")
      .ok ⟨uri, name, mime_type, anns⟩
  | _ => .error (.invalidType "object")

/-- `BlobResourceContents { blob, mime_type: Option, uri }`. -/
structure BlobResourceContents where
  blob : String
  mime_type : Option String
  uri : String
deriving DecidableEq, Repr

def encodeBlobResourceContents (b : BlobResourceContents) : Json :=
  .obj [("blob", .str b.blob),
        ("mime_type", encodeOpt Json.str b.mime_type),
        ("uri", .str b.uri)]

def decodeBlobResourceContents : Json → Except DecodeError BlobResourceContents
  | .obj fs => do
      let blob ← decodeReqField decodeString "blob" (getField fs "blob")
      let mime_type ← decodeOptField decodeString (getField fs "mime_type")
      let uri ← decodeReqField decodeString "uri" (getField fs "uri")
      .ok ⟨blob, mime_type, uri⟩
  | _ => .error (.invalidType "object")

/-- `TextContent { text, annotations: Option }`. -/
structure TextContent where
  text : String
  annotations : Option Annotations
deriving DecidableEq, Repr

/-- `ImageContent { image_data, mime_type, annotations: Option }`. -/
structure ImageContent where
  image_data : String
  mime_type : String
  annotations : Option Annotations
deriving DecidableEq, Repr

/-- `EmbeddedResource { resource, annotations: Option }`. -/
structure EmbeddedResource where
  resource : Resource
  annotations : Option Annotations
deriving DecidableEq, Repr

/-- The internally tagged `ContentType` union (`#[serde(tag = "type")]`). -/
inductive ContentType where
  | Text (c : TextContent) : ContentType
  | Image (c : ImageContent) : ContentType
  | EmbeddedResource (c : EmbeddedResource) : ContentType
deriving DecidableEq, Repr

def textContentFields (c : TextContent) : List (String × Json) :=
  [("text", .str c.text),
   ("annotations", encodeOpt encodeAnnotations c.annotations)]

def encodeTextContent (c : TextContent) : Json := .obj (textContentFields c)

def decodeTextContent : Json → Except DecodeError TextContent
  | .obj fs => do
      let text ← decodeReqField decodeString "text" (getField fs "text")
      let anns ← decodeOptField decodeAnnotations (getField fs "annotations")
      .ok ⟨text, anns⟩
  | _ => .error (.invalidType "object")

def imageContentFields (c : ImageContent) : List (String × Json) :=
  [("image_data", .str c.image_data),
   ("mime_type", .str c.mime_type),
   ("annotations", encodeOpt encodeAnnotations c.annotations)]

def encodeImageContent (c : ImageContent) : Json := .obj (imageContentFields c)

def decodeImageContent : Json → Except DecodeError ImageContent
  | .obj fs => do
      let image_data ← decodeReqField decodeString "image_data" (getField fs "image_data")
      let mime_type ← decodeReqField decodeString "mime_type" (getField fs "mime_type")
      let anns ← decodeOptField decodeAnnotations (getField fs "annotations")
      .ok ⟨image_data, mime_type, anns⟩
  | _ => .error (.invalidType "object")

def embeddedResourceFields (c : EmbeddedResource) : List (String × Json) :=
  [("resource", encodeResource c.resource),
   ("annotations", encodeOpt encodeAnnotations c.annotations)]

def encodeEmbeddedResource (c : EmbeddedResource) : Json := .obj (embeddedResourceFields c)

def decodeEmbeddedResource : Json → Except DecodeError EmbeddedResource
  | .obj fs => do
      let resource ← decodeReqField decodeResource "resource" (getField fs "resource")
      let anns ← decodeOptField decodeAnnotations (getField fs "annotations")
      .ok ⟨resource, anns⟩
  | _ => .error (.invalidType "object")

/-- Serialization of the internally tagged union: the `"type"` discriminator
carries the declared variant name, and the variant's own fields are flattened
alongside it in the same object. -/
def encodeContentType : ContentType → Json
  | .Text c => .obj (("type", .str "Text") :: textContentFields c)
  | .Image c => .obj (("type", .str "Image") :: imageContentFields c)
  | .EmbeddedResource c => .obj (("type", .str "EmbeddedResource") :: embeddedResourceFields c)

/-- Deserialization of the internally tagged union: read the `"type"` key,
then decode the matching variant from the remaining fields; a tag other than
the three declared variant names is an `unknownVariant` error. -/
def decodeContentType : Json → Except DecodeError ContentType
  | .obj fs =>
      match getField fs "type" with
      | none => .error (.missingField "type")
      | some (.str tag) =>
          let rest := fs.filter (fun p => p.1 != "type")
          if tag = "Text" then (decodeTextContent (.obj rest)).map .Text
          else if tag = "Image" then (decodeImageContent (.obj rest)).map .Image
          else if tag = "EmbeddedResource" then
            (decodeEmbeddedResource (.obj rest)).map .EmbeddedResource
          else .error (.unknownVariant tag)
      | some _ => .error (.invalidType "string")
  | _ => .error (.invalidType "object")

/-- `Tool { name, description, parameters: Value, returns: Option<Value>,
annotations: Option }`. -/
structure Tool where
  name : String
  description : String
  parameters : Json
  returns : Option Json
  annotations : Option Annotations

def encodeTool (t : Tool) : Json :=
  .obj [("name", .str t.name),
        ("description", .str t.description),
        ("parameters", t.parameters),
        ("returns", encodeOpt id t.returns),
        ("annotations", encodeOpt encodeAnnotations t.annotations)]

def decodeTool : Json → Except DecodeError Tool
  | .obj fs => do
      let name ← decodeReqField decodeString "name" (getField fs "name")
      let description ← decodeReqField decodeString "description" (getField fs "description")
      let parameters ← decodeReqField decodeValue "parameters" (getField fs "parameters")
      let returns ← decodeOptField decodeValue (getField fs "returns")
      let anns ← decodeOptField decodeAnnotations (getField fs "annotations")
      .ok ⟨name, description, parameters, returns, anns⟩
  | _ => .error (.invalidType "object")

/-- `ResourceTemplate { name, description: Option, annotations: Option }`. -/
structure ResourceTemplate where
  name : String
  description : Option String
  annotations : Option Annotations
deriving DecidableEq, Repr

def encodeResourceTemplate (r : ResourceTemplate) : Json :=
  .obj [("name", .str r.name),
        ("description", encodeOpt Json.str r.description),
        ("annotations", encodeOpt encodeAnnotations r.annotations)]

def decodeResourceTemplate : Json → Except DecodeError ResourceTemplate
  | .obj fs => do
      let name ← decodeReqField decodeString "name" (getField fs "name")
      let description ← decodeOptField decodeString (getField fs "description")
      let anns ← decodeOptField decodeAnnotations (getField fs "annotations")
      .ok ⟨name, description, anns⟩
  | _ => .error (.invalidType "object")

/-- `RootsCapability { list_changed: bool }`. -/
structure RootsCapability where
  list_changed : Bool
deriving DecidableEq, Repr

def encodeRootsCapability (r : RootsCapability) : Json :=
  .obj [("list_changed", .bool r.list_changed)]

def decodeRootsCapability : Json → Except DecodeError RootsCapability
  | .obj fs => do
      let list_changed ← decodeReqField decodeBoolean "list_changed" (getField fs "list_changed")
      .ok ⟨list_changed⟩
  | _ => .error (.invalidType "object")

/-- `ClientCapabilities { roots: Option, sampling: Option<HashMap>,
experimental: Option<HashMap<_, HashMap>> }`. -/
structure ClientCapabilities where
  roots : Option RootsCapability
  sampling : Option (List (String × Json))
  experimental : Option (List (String × List (String × Json)))

def encodeClientCapabilities (c : ClientCapabilities) : Json :=
  .obj [("roots", encodeOpt encodeRootsCapability c.roots),
        ("sampling", encodeOpt encodeValueMap c.sampling),
        ("experimental", encodeOpt encodeMapMap c.experimental)]

def decodeClientCapabilities : Json → Except DecodeError ClientCapabilities
  | .obj fs => do
      let roots ← decodeOptField decodeRootsCapability (getField fs "roots")
      let sampling ← decodeOptField decodeValueMap (getField fs "sampling")
      let experimental ← decodeOptField decodeMapMap (getField fs "experimental")
      .ok ⟨roots, sampling, experimental⟩
  | _ => .error (.invalidType "object")

/-- `ServerCapabilities { experimental: Option, tools: Option<Vec<Tool>>,
prompts: Option<Vec<ResourceTemplate>> }`. -/
structure ServerCapabilities where
  experimental : Option (List (String × List (String × Json)))
  tools : Option (List Tool)
  prompts : Option (List ResourceTemplate)

def encodeServerCapabilities (c : ServerCapabilities) : Json :=
  .obj [("experimental", encodeOpt encodeMapMap c.experimental),
        ("tools", encodeOpt (fun l => .arr (l.map encodeTool)) c.tools),
        ("prompts", encodeOpt (fun l => .arr (l.map encodeResourceTemplate)) c.prompts)]

def decodeServerCapabilities : Json → Except DecodeError ServerCapabilities
  | .obj fs => do
      let experimental ← decodeOptField decodeMapMap (getField fs "experimental")
      let tools ← decodeOptField (decodeArray decodeTool) (getField fs "tools")
      let prompts ← decodeOptField (decodeArray decodeResourceTemplate) (getField fs "prompts")
      .ok ⟨experimental, tools, prompts⟩
  | _ => .error (.invalidType "object")

/-- `Root { name: Option, uri, annotations: Option }`. -/
structure Root where
  name : Option String
  uri : String
  annotations : Option Annotations
deriving DecidableEq, Repr

def encodeRoot (r : Root) : Json :=
  .obj [("name", encodeOpt Json.str r.name),
        ("uri", .str r.uri),
        ("annotations", encodeOpt encodeAnnotations r.annotations)]

def decodeRoot : Json → Except DecodeError Root
  | .obj fs => do
      let name ← decodeOptField decodeString (getField fs "name")
      let uri ← decodeReqField decodeString "uri" (getField fs "uri")
      let anns ← decodeOptField decodeAnnotations (getField fs "annotations")
      .ok ⟨name, uri, anns⟩
  | _ => .error (.invalidType "object")

/-- `CallToolParams { name, arguments: Option<HashMap<String, Value>> }`. -/
structure CallToolParams where
  name : String
  arguments : Option (List (String × Json))

def encodeCallToolParams (p : CallToolParams) : Json :=
  .obj [("name", .str p.name),
        ("arguments", encodeOpt encodeValueMap p.arguments)]

def decodeCallToolParams : Json → Except DecodeError CallToolParams
  | .obj fs => do
      let name ← decodeReqField decodeString "name" (getField fs "name")
      let arguments ← decodeOptField decodeValueMap (getField fs "arguments")
      .ok ⟨name, arguments⟩
  | _ => .error (.invalidType "object")

/-- `CallToolRequest { method: String, params: CallToolParams }`; the comment
in the source declares `method` to be the constant `"tools/call"`, but the
field is a plain `String`. -/
structure CallToolRequest where
  method : String
  params : CallToolParams

def encodeCallToolRequest (r : CallToolRequest) : Json :=
  .obj [("method", .str r.method),
        ("params", encodeCallToolParams r.params)]

def decodeCallToolRequest : Json → Except DecodeError CallToolRequest
  | .obj fs => do
      let method ← decodeReqField decodeString "method" (getField fs "method")
      let params ← decodeReqField decodeCallToolParams "params" (getField fs "params")
      .ok ⟨method, params⟩
  | _ => .error (.invalidType "object")

/-- `CallToolResult { content: Vec<ContentType>, is_error: Option<bool>,
meta: Option<HashMap> }` with `meta` renamed to the wire key `"_meta"`. -/
structure CallToolResult where
  content : List ContentType
  is_error : Option Bool
  meta : Option (List (String × Json))

def encodeCallToolResult (r : CallToolResult) : Json :=
  .obj [("content", .arr (r.content.map encodeContentType)),
        ("is_error", encodeOpt Json.bool r.is_error),
        ("_meta", encodeOpt encodeValueMap r.meta)]

def decodeCallToolResult : Json → Except DecodeError CallToolResult
  | .obj fs => do
      let content ← decodeReqField (decodeArray decodeContentType) "content" (getField fs "content")
      let is_error ← decodeOptField decodeBoolean (getField fs "is_error")
      let meta ← decodeOptField decodeValueMap (getField fs "_meta")
      .ok ⟨content, is_error, meta⟩
  | _ => .error (.invalidType "object")

/-- `InitializeResult { capabilities: ServerCapabilities, meta: Option<HashMap> }`
with `meta` renamed to the wire key `"_meta"`. -/
structure InitializeResult where
  capabilities : ServerCapabilities
  meta : Option (List (String × Json))

def encodeInitializeResult (r : InitializeResult) : Json :=
  .obj [("capabilities", encodeServerCapabilities r.capabilities),
        ("_meta", encodeOpt encodeValueMap r.meta)]

def decodeInitializeResult : Json → Except DecodeError InitializeResult
  | .obj fs => do
      let capabilities ←
        decodeReqField decodeServerCapabilities "capabilities" (getField fs "capabilities")
      let meta ← decodeOptField decodeValueMap (getField fs "_meta")
      .ok ⟨capabilities, meta⟩
  | _ => .error (.invalidType "object")


/-- A `Tool`'s `returns` field, when present, is not the JSON `null` value.
A present-`null` `returns` is the one state the serde round trip cannot
preserve: `Option<serde_json::Value>` writes `Some(Value::Null)` as `null`
and reads `null` back as `None`. -/
def Tool.returnsOk (t : Tool) : Bool :=
  match t.returns with
  | none => true
  | some j => !j.isNull

/-- An `Annotations`' `priority`, when present, is a finite float.  A present
non-finite priority is serialized as `null` by serde_json and read back as
the absent state, so it cannot survive a round trip. -/
def Annotations.priorityOk (a : Annotations) : Bool :=
  match a.priority with
  | none => true
  | some v => v.isFinite

/-- An optional `annotations` field whose present value round-trips. -/
def annsOk : Option Annotations → Bool
  | none => true
  | some a => a.priorityOk

/-- Every `Annotations` contained in the value has a finite-or-absent
priority (and, where a `Tool` is involved, a non-null-or-absent `returns`):
the exact condition under which serde's round trip preserves the value. -/
def Resource.roundOk (r : Resource) : Bool := annsOk r.annotations

def TextContent.roundOk (c : TextContent) : Bool := annsOk c.annotations

def ImageContent.roundOk (c : ImageContent) : Bool := annsOk c.annotations

def EmbeddedResource.roundOk (c : EmbeddedResource) : Bool :=
  c.resource.roundOk && annsOk c.annotations

def ContentType.roundOk : ContentType → Bool
  | .Text c => c.roundOk
  | .Image c => c.roundOk
  | .EmbeddedResource c => c.roundOk

def Tool.roundOk (t : Tool) : Bool := t.returnsOk && annsOk t.annotations

def ResourceTemplate.roundOk (r : ResourceTemplate) : Bool := annsOk r.annotations

def Root.roundOk (r : Root) : Bool := annsOk r.annotations

def CallToolResult.roundOk (r : CallToolResult) : Bool :=
  r.content.all ContentType.roundOk

def ServerCapabilities.roundOk (c : ServerCapabilities) : Bool :=
  (match c.tools with
   | none => true
   | some l => l.all Tool.roundOk) &&
  (match c.prompts with
   | none => true
   | some l => l.all ResourceTemplate.roundOk)

def InitializeResult.roundOk (r : InitializeResult) : Bool :=
  r.capabilities.roundOk

@[simp] theorem except_ok_bind (a : α) (f : α → Except ε β) :
    (Except.ok a >>= f : Except ε β) = f a := rfl

@[simp] theorem except_map_ok (f : α → β) (a : α) :
    (Except.ok a : Except ε α).map f = .ok (f a) := rfl

@[simp] theorem isNull_bool (b : Bool) : (Json.bool b).isNull = false := rfl

@[simp] theorem isNull_num (q : ℚ) : (Json.num q).isNull = false := rfl

@[simp] theorem isNull_str (s : String) : (Json.str s).isNull = false := rfl

@[simp] theorem isNull_arr (xs : List Json) : (Json.arr xs).isNull = false := rfl

@[simp] theorem isNull_obj (fs : List (String × Json)) : (Json.obj fs).isNull = false := rfl

@[simp] theorem isNull_encodeAnnotations (a : Annotations) :
    (encodeAnnotations a).isNull = false := rfl

@[simp] theorem isNull_encodeResource (r : Resource) :
    (encodeResource r).isNull = false := rfl

@[simp] theorem isNull_encodeRootsCapability (r : RootsCapability) :
    (encodeRootsCapability r).isNull = false := rfl

@[simp] theorem isNull_encodeValueMap (m : List (String × Json)) :
    (encodeValueMap m).isNull = false := rfl

@[simp] theorem isNull_encodeMapMap (m : List (String × List (String × Json))) :
    (encodeMapMap m).isNull = false := rfl

@[simp] theorem isNull_encodeCallToolParams (p : CallToolParams) :
    (encodeCallToolParams p).isNull = false := rfl

@[simp] theorem isNull_encodeServerCapabilities (c : ServerCapabilities) :
    (encodeServerCapabilities c).isNull = false := rfl

@[simp] theorem decodeOptField_none (dec : Json → Except DecodeError α) :
    decodeOptField dec none = .ok none := rfl

@[simp] theorem decodeOptField_some_null (dec : Json → Except DecodeError α) :
    decodeOptField dec (some .null) = .ok none := rfl

@[simp] theorem decodeOptField_some (dec : Json → Except DecodeError α) (j : Json)
    (h : j.isNull = false) : decodeOptField dec (some j) = (dec j).map some := by
  simp [decodeOptField, h]

@[simp] theorem decodeReqField_none (dec : Json → Except DecodeError α) (n : String) :
    decodeReqField dec n none = .error (.missingField n) := rfl

@[simp] theorem decodeReqField_some (dec : Json → Except DecodeError α) (n : String)
    (j : Json) : decodeReqField dec n (some j) = dec j := rfl

theorem roundtrip_role (r : Role) : decodeRole (encodeRole r) = .ok r := by
  cases r <;> rfl

theorem decodeElems_map_roundtrip_mem (enc : α → Json) (dec : Json → Except DecodeError α)
    (l : List α) (h : ∀ a ∈ l, dec (enc a) = .ok a) :
    decodeElems dec (l.map enc) = .ok l := by
  induction l with
  | nil => rfl
  | cons x xs ih =>
      simp only [List.map_cons, decodeElems, h x (by simp), except_ok_bind,
        ih (fun a ha => h a (by simp [ha]))]

theorem roundtrip_valueMap (m : List (String × Json)) :
    decodeValueMap (encodeValueMap m) = .ok m := rfl

theorem roundtrip_mapMap (m : List (String × List (String × Json))) :
    decodeMapMap (encodeMapMap m) = .ok m := by
  induction m with
  | nil => rfl
  | cons p rest ih =>
      obtain ⟨k, v⟩ := p
      have ih2 : decodeInnerMaps (rest.map fun p => (p.1, Json.obj p.2)) = .ok rest := ih
      simp [encodeMapMap, decodeMapMap, decodeInnerMaps, ih2, Except.map]

theorem roundtrip_annotations (a : Annotations) (h : a.priorityOk = true) :
    decodeAnnotations (encodeAnnotations a) = .ok a := by
  obtain ⟨aud, pri⟩ := a
  cases pri with
  | none =>
      cases aud <;>
        simp [encodeAnnotations, decodeAnnotations, getField, encodeOpt, decodeArray,
              decodeElems_map_roundtrip_mem _ _ _ (fun r _ => roundtrip_role r)]
  | some v =>
      have hv : v.isFinite = true := by simpa [Annotations.priorityOk] using h
      cases v with
      | finite q =>
          cases aud <;>
            simp [encodeAnnotations, decodeAnnotations, getField, encodeOpt,
                  encodeF32, decodeF32, decodeArray,
                  decodeElems_map_roundtrip_mem _ _ _ (fun r _ => roundtrip_role r)]
      | nan => simp [F32.isFinite] at hv
      | posInf => simp [F32.isFinite] at hv
      | negInf => simp [F32.isFinite] at hv

theorem roundtrip_resource (r : Resource) (h : r.roundOk = true) :
    decodeResource (encodeResource r) = .ok r := by
  obtain ⟨uri, name, mt, anns⟩ := r
  cases anns with
  | none =>
      cases name <;> cases mt <;>
        simp [encodeResource, decodeResource, getField, encodeOpt, decodeString]
  | some a =>
      have ha : decodeAnnotations (encodeAnnotations a) = .ok a :=
        roundtrip_annotations a (by simpa [Resource.roundOk, annsOk] using h)
      cases name <;> cases mt <;>
        simp [encodeResource, decodeResource, getField, encodeOpt, decodeString, ha]

theorem roundtrip_blobResourceContents (b : BlobResourceContents) :
    decodeBlobResourceContents (encodeBlobResourceContents b) = .ok b := by
  obtain ⟨blob, mt, uri⟩ := b
  cases mt <;>
    simp [encodeBlobResourceContents, decodeBlobResourceContents, getField,
          encodeOpt, decodeString]

theorem roundtrip_textContent (c : TextContent) (h : c.roundOk = true) :
    decodeTextContent (encodeTextContent c) = .ok c := by
  obtain ⟨text, anns⟩ := c
  cases anns with
  | none =>
      simp [encodeTextContent, textContentFields, decodeTextContent, getField,
            encodeOpt, decodeString]
  | some a =>
      have ha : decodeAnnotations (encodeAnnotations a) = .ok a :=
        roundtrip_annotations a (by simpa [TextContent.roundOk, annsOk] using h)
      simp [encodeTextContent, textContentFields, decodeTextContent, getField,
            encodeOpt, decodeString, ha]

theorem roundtrip_imageContent (c : ImageContent) (h : c.roundOk = true) :
    decodeImageContent (encodeImageContent c) = .ok c := by
  obtain ⟨d, mt, anns⟩ := c
  cases anns with
  | none =>
      simp [encodeImageContent, imageContentFields, decodeImageContent, getField,
            encodeOpt, decodeString]
  | some a =>
      have ha : decodeAnnotations (encodeAnnotations a) = .ok a :=
        roundtrip_annotations a (by simpa [ImageContent.roundOk, annsOk] using h)
      simp [encodeImageContent, imageContentFields, decodeImageContent, getField,
            encodeOpt, decodeString, ha]

theorem roundtrip_embeddedResource (c : EmbeddedResource) (h : c.roundOk = true) :
    decodeEmbeddedResource (encodeEmbeddedResource c) = .ok c := by
  obtain ⟨res, anns⟩ := c
  simp only [EmbeddedResource.roundOk, Bool.and_eq_true] at h
  obtain ⟨h1, h2⟩ := h
  have hres : decodeResource (encodeResource res) = .ok res := roundtrip_resource res h1
  cases anns with
  | none =>
      simp [encodeEmbeddedResource, embeddedResourceFields, decodeEmbeddedResource,
            getField, encodeOpt, hres]
  | some a =>
      have ha : decodeAnnotations (encodeAnnotations a) = .ok a :=
        roundtrip_annotations a (by simpa [annsOk] using h2)
      simp [encodeEmbeddedResource, embeddedResourceFields, decodeEmbeddedResource,
            getField, encodeOpt, hres, ha]

theorem roundtrip_contentType (c : ContentType) (h : c.roundOk = true) :
    decodeContentType (encodeContentType c) = .ok c := by
  cases c with
  | Text tc =>
      exact congrArg (Except.map ContentType.Text)
        (roundtrip_textContent tc (by simpa [ContentType.roundOk] using h))
  | Image ic =>
      exact congrArg (Except.map ContentType.Image)
        (roundtrip_imageContent ic (by simpa [ContentType.roundOk] using h))
  | EmbeddedResource ec =>
      exact congrArg (Except.map ContentType.EmbeddedResource)
        (roundtrip_embeddedResource ec (by simpa [ContentType.roundOk] using h))

theorem roundtrip_tool (t : Tool) (h : t.roundOk = true) :
    decodeTool (encodeTool t) = .ok t := by
  obtain ⟨n, d, p, ret, anns⟩ := t
  simp only [Tool.roundOk, Bool.and_eq_true] at h
  obtain ⟨h1, h2⟩ := h
  have hanns : ∀ a, anns = some a → decodeAnnotations (encodeAnnotations a) = .ok a := by
    intro a ha
    subst ha
    exact roundtrip_annotations a (by simpa [annsOk] using h2)
  cases ret with
  | none =>
      cases anns with
      | none =>
          simp [encodeTool, decodeTool, getField, encodeOpt, decodeString, decodeValue]
      | some a =>
          simp [encodeTool, decodeTool, getField, encodeOpt, decodeString, decodeValue,
                hanns a rfl]
  | some j =>
      have hj : j.isNull = false := by simpa [Tool.returnsOk] using h1
      cases anns with
      | none =>
          simp [encodeTool, decodeTool, getField, encodeOpt, decodeString, decodeValue, hj]
      | some a =>
          simp [encodeTool, decodeTool, getField, encodeOpt, decodeString, decodeValue,
                hj, hanns a rfl]

theorem roundtrip_resourceTemplate (r : ResourceTemplate) (h : r.roundOk = true) :
    decodeResourceTemplate (encodeResourceTemplate r) = .ok r := by
  obtain ⟨name, descr, anns⟩ := r
  cases anns with
  | none =>
      cases descr <;>
        simp [encodeResourceTemplate, decodeResourceTemplate, getField, encodeOpt,
              decodeString]
  | some a =>
      have ha : decodeAnnotations (encodeAnnotations a) = .ok a :=
        roundtrip_annotations a (by simpa [ResourceTemplate.roundOk, annsOk] using h)
      cases descr <;>
        simp [encodeResourceTemplate, decodeResourceTemplate, getField, encodeOpt,
              decodeString, ha]

theorem roundtrip_rootsCapability (r : RootsCapability) :
    decodeRootsCapability (encodeRootsCapability r) = .ok r := by
  obtain ⟨b⟩ := r
  simp [encodeRootsCapability, decodeRootsCapability, getField, decodeBoolean]

theorem roundtrip_clientCapabilities (c : ClientCapabilities) :
    decodeClientCapabilities (encodeClientCapabilities c) = .ok c := by
  obtain ⟨roots, sampling, ex⟩ := c
  cases roots <;> cases sampling <;> cases ex <;>
    simp [encodeClientCapabilities, decodeClientCapabilities, getField, encodeOpt,
          roundtrip_rootsCapability, roundtrip_mapMap, decodeValueMap, encodeValueMap]

theorem roundtrip_serverCapabilities (c : ServerCapabilities) (h : c.roundOk = true) :
    decodeServerCapabilities (encodeServerCapabilities c) = .ok c := by
  obtain ⟨ex, tools, prompts⟩ := c
  simp only [ServerCapabilities.roundOk, Bool.and_eq_true] at h
  obtain ⟨h1, h2⟩ := h
  cases tools with
  | none =>
      cases prompts with
      | none =>
          cases ex <;>
            simp [encodeServerCapabilities, decodeServerCapabilities, getField,
                  encodeOpt, roundtrip_mapMap, decodeArray]
      | some lp =>
          have hp : ∀ r ∈ lp, decodeResourceTemplate (encodeResourceTemplate r) = .ok r :=
            fun r hr => roundtrip_resourceTemplate r (List.all_eq_true.mp h2 r hr)
          cases ex <;>
            simp [encodeServerCapabilities, decodeServerCapabilities, getField,
                  encodeOpt, roundtrip_mapMap, decodeArray,
                  decodeElems_map_roundtrip_mem _ _ _ hp]
  | some lt =>
      have ht : ∀ t ∈ lt, decodeTool (encodeTool t) = .ok t :=
        fun t h3 => roundtrip_tool t (List.all_eq_true.mp h1 t h3)
      cases prompts with
      | none =>
          cases ex <;>
            simp [encodeServerCapabilities, decodeServerCapabilities, getField,
                  encodeOpt, roundtrip_mapMap, decodeArray,
                  decodeElems_map_roundtrip_mem _ _ _ ht]
      | some lp =>
          have hp : ∀ r ∈ lp, decodeResourceTemplate (encodeResourceTemplate r) = .ok r :=
            fun r hr => roundtrip_resourceTemplate r (List.all_eq_true.mp h2 r hr)
          cases ex <;>
            simp [encodeServerCapabilities, decodeServerCapabilities, getField,
                  encodeOpt, roundtrip_mapMap, decodeArray,
                  decodeElems_map_roundtrip_mem _ _ _ ht,
                  decodeElems_map_roundtrip_mem _ _ _ hp]

theorem roundtrip_root (r : Root) (h : r.roundOk = true) :
    decodeRoot (encodeRoot r) = .ok r := by
  obtain ⟨name, uri, anns⟩ := r
  cases anns with
  | none =>
      cases name <;>
        simp [encodeRoot, decodeRoot, getField, encodeOpt, decodeString]
  | some a =>
      have ha : decodeAnnotations (encodeAnnotations a) = .ok a :=
        roundtrip_annotations a (by simpa [Root.roundOk, annsOk] using h)
      cases name <;>
        simp [encodeRoot, decodeRoot, getField, encodeOpt, decodeString, ha]

theorem roundtrip_callToolParams (p : CallToolParams) :
    decodeCallToolParams (encodeCallToolParams p) = .ok p := by
  obtain ⟨name, args⟩ := p
  cases args <;>
    simp [encodeCallToolParams, decodeCallToolParams, getField, encodeOpt,
          decodeString, decodeValueMap, encodeValueMap]

theorem roundtrip_callToolRequest (r : CallToolRequest) :
    decodeCallToolRequest (encodeCallToolRequest r) = .ok r := by
  obtain ⟨method, params⟩ := r
  simp [encodeCallToolRequest, decodeCallToolRequest, getField, decodeString,
        roundtrip_callToolParams]

theorem roundtrip_callToolResult (r : CallToolResult) (h : r.roundOk = true) :
    decodeCallToolResult (encodeCallToolResult r) = .ok r := by
  obtain ⟨content, err, meta⟩ := r
  have hc : ∀ c ∈ content, decodeContentType (encodeContentType c) = .ok c :=
    fun c h3 => roundtrip_contentType c
      (List.all_eq_true.mp (by simpa [CallToolResult.roundOk] using h) c h3)
  cases err <;> cases meta <;>
    simp [encodeCallToolResult, decodeCallToolResult, getField, encodeOpt,
          decodeBoolean, decodeValueMap, encodeValueMap, decodeArray,
          decodeElems_map_roundtrip_mem _ _ _ hc]

theorem roundtrip_initializeResult (r : InitializeResult) (h : r.roundOk = true) :
    decodeInitializeResult (encodeInitializeResult r) = .ok r := by
  obtain ⟨caps, meta⟩ := r
  have hc := roundtrip_serverCapabilities caps
    (by simpa [InitializeResult.roundOk] using h)
  cases meta <;>
    simp [encodeInitializeResult, decodeInitializeResult, getField, encodeOpt,
          decodeValueMap, encodeValueMap, hc]

@[simp] theorem except_error_bind (e : ε) (f : α → Except ε β) :
    (Except.error e >>= f : Except ε β) = .error e := rfl

theorem getField_eq_none {fs : List (String × Json)} {k : String}
    (h : k ∉ fs.map Prod.fst) : getField fs k = none := by
  induction fs with
  | nil => rfl
  | cons p rest ih =>
      obtain ⟨k0, v⟩ := p
      simp only [List.map_cons, List.mem_cons, not_or] at h
      obtain ⟨h1, h2⟩ := h
      simp [getField, Ne.symm h1, ih h2]

theorem getField_cons_ne {k0 k : String} (v : Json) (fs : List (String × Json))
    (h : k0 ≠ k) : getField ((k0, v) :: fs) k = getField fs k := by
  simp [getField, h]

/-- C7: `Role` is a closed enumeration of exactly User, Assistant, System;
encode maps the variants to the exact lowercase tokens "user", "assistant",
"system", decode maps exactly those tokens back, and decoding any other
string token fails with a decode error rather than producing a new variant. -/
theorem C7_role_closed_enum :
    (encodeRole .User = .str "user" ∧ encodeRole .Assistant = .str "assistant" ∧
      encodeRole .System = .str "system") ∧
    (decodeRole (.str "user") = .ok .User ∧ decodeRole (.str "assistant") = .ok .Assistant ∧
      decodeRole (.str "system") = .ok .System) ∧
    (∀ s : String, s ≠ "user" → s ≠ "assistant" → s ≠ "system" →
      decodeRole (.str s) = .error (.unknownVariant s)) := by
  refine ⟨⟨rfl, rfl, rfl⟩, ⟨rfl, rfl, rfl⟩, ?_⟩
  intro s h1 h2 h3
  simp [decodeRole, h1, h2, h3]

/-- Witness for C7 at the concrete unrecognized token "moderator". -/
theorem C7_witness :
    decodeRole (.str "moderator") = .error (.unknownVariant "moderator") :=
  C7_role_closed_enum.2.2 "moderator" (by decide) (by decide) (by decide)

/-- C2: decoding a `ContentType` accepts exactly the three discriminator
values "Text", "Image", "EmbeddedResource" carried in an explicit "type"
field, with the variant's remaining fields flattened alongside the tag in the
same object; any other discriminator fails with an unknown-variant error. -/
theorem C2_contentType_tagged_union :
    (∀ c : TextContent, encodeContentType (.Text c) =
        .obj [("type", .str "Text"), ("text", .str c.text),
              ("annotations", encodeOpt encodeAnnotations c.annotations)]) ∧
    (∀ c : ImageContent, encodeContentType (.Image c) =
        .obj [("type", .str "Image"), ("image_data", .str c.image_data),
              ("mime_type", .str c.mime_type),
              ("annotations", encodeOpt encodeAnnotations c.annotations)]) ∧
    (∀ c : EmbeddedResource, encodeContentType (.EmbeddedResource c) =
        .obj [("type", .str "EmbeddedResource"), ("resource", encodeResource c.resource),
              ("annotations", encodeOpt encodeAnnotations c.annotations)]) ∧
    (∀ c : ContentType, c.roundOk = true →
        decodeContentType (encodeContentType c) = .ok c) ∧
    (decodeContentType (.obj [("type", .str "Text"), ("text", .str "hi")]) =
        .ok (.Text ⟨"hi", none⟩)) ∧
    (decodeContentType (.obj [("type", .str "Image"), ("image_data", .str "QUJD"),
        ("mime_type", .str "image/png")]) = .ok (.Image ⟨"QUJD", "image/png", none⟩)) ∧
    (decodeContentType (.obj [("type", .str "EmbeddedResource"),
        ("resource", .obj [("uri", .str "file:///a")])]) =
      .ok (.EmbeddedResource ⟨⟨"file:///a", none, none, none⟩, none⟩)) ∧
    (∀ fs s, getField fs "type" = some (.str s) →
        s ≠ "Text" → s ≠ "Image" → s ≠ "EmbeddedResource" →
        decodeContentType (.obj fs) = .error (.unknownVariant s)) := by
  refine ⟨fun c => rfl, fun c => rfl, fun c => rfl, roundtrip_contentType,
    rfl, rfl, rfl, ?_⟩
  intro fs s hget h1 h2 h3
  simp [decodeContentType, hget, h1, h2, h3]

/-- Witness for C2 at the concrete fourth tag "video". -/
theorem C2_witness :
    decodeContentType (.obj [("type", .str "video")]) =
      .error (.unknownVariant "video") :=
  C2_contentType_tagged_union.2.2.2.2.2.2.2 [("type", .str "video")] "video" rfl
    (by decide) (by decide) (by decide)

/-- C10: the wire discriminators of `ContentType` are the CamelCase variant
names "Text", "Image", "EmbeddedResource" (there is no `rename_all` on the
enum); decode accepts exactly those three strings, and the lowercase tokens
"text", "image", "embeddedresource" are rejected as unknown tags. -/
theorem C10_camelCase_tags :
    (∀ c : TextContent, getField
        (("type", Json.str "Text") :: textContentFields c) "type" = some (.str "Text") ∧
        encodeContentType (.Text c) = .obj (("type", .str "Text") :: textContentFields c)) ∧
    (∀ c : ImageContent,
        encodeContentType (.Image c) = .obj (("type", .str "Image") :: imageContentFields c)) ∧
    (∀ c : EmbeddedResource, encodeContentType (.EmbeddedResource c) =
        .obj (("type", .str "EmbeddedResource") :: embeddedResourceFields c)) ∧
    (decodeContentType (.obj [("type", .str "Text"), ("text", .str "hi")]) =
        .ok (.Text ⟨"hi", none⟩)) ∧
    (decodeContentType (.obj [("type", .str "text"), ("text", .str "hi")]) =
        .error (.unknownVariant "text")) ∧
    (decodeContentType (.obj [("type", .str "image")]) =
        .error (.unknownVariant "image")) ∧
    (decodeContentType (.obj [("type", .str "embeddedresource")]) =
        .error (.unknownVariant "embeddedresource")) ∧
    (∀ fs s, getField fs "type" = some (.str s) →
        s ≠ "Text" → s ≠ "Image" → s ≠ "EmbeddedResource" →
        ∀ c : ContentType, decodeContentType (.obj fs) ≠ .ok c) := by
  refine ⟨fun c => ⟨rfl, rfl⟩, fun c => rfl, fun c => rfl, rfl, rfl, rfl, rfl, ?_⟩
  intro fs s hget h1 h2 h3 c
  simp [decodeContentType, hget, h1, h2, h3]

/-- Witness for C10 at the concrete lowercase tag "text". -/
theorem C10_witness :
    decodeContentType (.obj [("type", .str "text"), ("text", .str "hi")]) ≠
      .ok (.Text ⟨"hi", none⟩) :=
  C10_camelCase_tags.2.2.2.2.2.2.2 [("type", .str "text"), ("text", .str "hi")]
    "text" rfl (by decide) (by decide) (by decide) (.Text ⟨"hi", none⟩)

theorem decodeTool_err_of_no_descr {fs : List (String × Json)}
    (h : getField fs "description" = none) :
    ∃ e, decodeTool (.obj fs) = .error e := by
  rcases hn : getField fs "name" with _ | jn
  · exact ⟨.missingField "name", by simp [decodeTool, hn]⟩
  · cases jn <;> simp [decodeTool, hn, h, decodeString]

theorem decodeTool_err_of_no_params {fs : List (String × Json)}
    (h : getField fs "parameters" = none) :
    ∃ e, decodeTool (.obj fs) = .error e := by
  rcases hn : getField fs "name" with _ | jn
  · exact ⟨.missingField "name", by simp [decodeTool, hn]⟩
  rcases hd : getField fs "description" with _ | jd
  · cases jn <;> simp [decodeTool, hn, hd, decodeString]
  · cases jn <;> cases jd <;> simp [decodeTool, hn, hd, h, decodeString]

/-- C5: decoding a wire document that lacks a required field of the target
type fails (no default is substituted); on a document whose present fields
are well-formed the failure is a missing-field error naming the absent field,
and in particular decoding the object with only "uri": "file:///a" as a
`BlobResourceContents` fails with a missing-field error naming "blob". -/
theorem C5_missing_required :
    (decodeBlobResourceContents (.obj [("uri", .str "file:///a")]) =
        .error (.missingField "blob")) ∧
    (decodeTool (.obj [("name", .str "t")]) = .error (.missingField "description")) ∧
    (decodeResource (.obj []) = .error (.missingField "uri")) ∧
    (∀ fs, "blob" ∉ fs.map Prod.fst →
        ∃ e, decodeBlobResourceContents (.obj fs) = .error e) ∧
    (∀ fs, "name" ∉ fs.map Prod.fst → ∃ e, decodeTool (.obj fs) = .error e) ∧
    (∀ fs, "description" ∉ fs.map Prod.fst → ∃ e, decodeTool (.obj fs) = .error e) ∧
    (∀ fs, "parameters" ∉ fs.map Prod.fst → ∃ e, decodeTool (.obj fs) = .error e) := by
  refine ⟨rfl, rfl, rfl, ?_, ?_, ?_, ?_⟩
  · intro fs h
    exact ⟨.missingField "blob", by simp [decodeBlobResourceContents, getField_eq_none h]⟩
  · intro fs h
    exact ⟨.missingField "name", by simp [decodeTool, getField_eq_none h]⟩
  · intro fs h
    exact decodeTool_err_of_no_descr (getField_eq_none h)
  · intro fs h
    exact decodeTool_err_of_no_params (getField_eq_none h)

/-- Witness for C5: the document with only a "uri" key has no "blob" key, and
decoding it as a `BlobResourceContents` fails. -/
theorem C5_witness :
    ∃ e, decodeBlobResourceContents (.obj [("uri", .str "file:///a")]) = .error e :=
  C5_missing_required.2.2.2.1 [("uri", .str "file:///a")] (by decide)

/-- C8: a wire document containing unknown extra fields decodes as if they
were absent (for example a `Tool` document with an extra key
"extra_field": 1 decodes successfully, ignoring that key), and encode only
ever writes the modeled keys, so the unknown field is not reproduced. -/
theorem C8_unknown_fields :
    (∀ fs k v, k ∉ ["name", "description", "parameters", "returns", "annotations"] →
        decodeTool (.obj ((k, v) :: fs)) = decodeTool (.obj fs)) ∧
    (decodeTool (.obj [("name", .str "t"), ("description", .str "d"),
        ("parameters", .obj []), ("extra_field", .num 1)]) =
      .ok ⟨"t", "d", .obj [], none, none⟩) ∧
    (∀ t : Tool, Json.objKeys (encodeTool t) =
        ["name", "description", "parameters", "returns", "annotations"]) := by
  refine ⟨?_, rfl, fun t => rfl⟩
  intro fs k v hk
  simp only [List.mem_cons, List.not_mem_nil, or_false, not_or] at hk
  obtain ⟨h1, h2, h3, h4, h5⟩ := hk
  simp [decodeTool, getField, h1, h2, h3, h4, h5]

/-- Witness for C8: prepending the unknown key "extra_field" to a concrete
`Tool` document leaves the decode result unchanged. -/
theorem C8_witness :
    decodeTool (.obj (("extra_field", .num 1) :: [("name", .str "t"),
        ("description", .str "d"), ("parameters", .obj [])])) =
      decodeTool (.obj [("name", .str "t"), ("description", .str "d"),
        ("parameters", .obj [])]) :=
  C8_unknown_fields.1 [("name", .str "t"), ("description", .str "d"),
    ("parameters", .obj [])] "extra_field" (.num 1) (by decide)

/-- C9: `CallToolResult` and `InitializeResult` write their `meta` field
under the exact wire key "_meta" (never "meta"), decode reads it back from
"_meta", a key "meta" is ignored, and every other field uses its
lower_snake_case name as the wire key. -/
theorem C9_meta_wire_key :
    (∀ r : CallToolResult,
        Json.objKeys (encodeCallToolResult r) = ["content", "is_error", "_meta"]) ∧
    (∀ r : InitializeResult,
        Json.objKeys (encodeInitializeResult r) = ["capabilities", "_meta"]) ∧
    (decodeCallToolResult (.obj [("content", .arr []), ("_meta", .obj [])]) =
        .ok ⟨[], none, some []⟩) ∧
    (decodeInitializeResult (.obj [("capabilities", .obj []), ("_meta", .obj [])]) =
        .ok ⟨⟨none, none, none⟩, some []⟩) ∧
    (decodeCallToolResult (.obj [("content", .arr []), ("meta", .obj [])]) =
        .ok ⟨[], none, none⟩) :=
  ⟨fun _ => rfl, fun _ => rfl, rfl, rfl, rfl⟩

/-- C6 counterexample: decode accepts a `CallToolRequest` whose method is not
"tools/call" — the decoded method is whatever string was on the wire, so it
is not true that every successfully decoded request has method "tools/call". -/
theorem C6_counterexample :
    decodeCallToolRequest (.obj [("method", .str "not_tools_call"),
        ("params", .obj [("name", .str "search")])]) =
      .ok ⟨"not_tools_call", ⟨"search", none⟩⟩ ∧
    ("not_tools_call" : String) ≠ "tools/call" :=
  ⟨rfl, by decide⟩

/-- C6 (amended): decode performs no validation of `method`; a successfully
decoded `CallToolRequest` carries verbatim the string found under the wire
key "method", and a document with any method string decodes successfully.
The value "tools/call" is a convention for collaborators, not enforced. -/
theorem C6_method_passthrough :
    (∀ fs r, decodeCallToolRequest (.obj fs) = .ok r →
        getField fs "method" = some (.str r.method)) ∧
    (∀ m name : String, decodeCallToolRequest (.obj [("method", .str m),
        ("params", .obj [("name", .str name)])]) = .ok ⟨m, ⟨name, none⟩⟩) := by
  refine ⟨?_, fun m name => rfl⟩
  intro fs r h
  simp only [decodeCallToolRequest] at h
  rcases hm : getField fs "method" with _ | j
  · rw [hm] at h
    simp at h
  · rw [hm] at h
    cases j <;> simp [decodeString] at h
    rcases hp : decodeReqField decodeCallToolParams "params" (getField fs "params")
        with e | p
    · rw [hp] at h
      simp at h
    · rw [hp] at h
      injection h with h2
      subst h2
      rfl

/-- Witness for C6: the passthrough property applied at a concrete document
whose method string is "tools/call". -/
theorem C6_witness :
    getField [("method", Json.str "tools/call"),
        ("params", Json.obj [("name", Json.str "search")])] "method" =
      some (.str ("tools/call" : String)) :=
  C6_method_passthrough.1
    [("method", .str "tools/call"), ("params", .obj [("name", .str "search")])]
    ⟨"tools/call", ⟨"search", none⟩⟩ rfl

/-- C4 counterexample: "!!!" is not valid base64, yet decoding a
`BlobResourceContents` whose blob is "!!!" succeeds — there is no base64
validation and no invalid-encoding failure in the decode path. -/
theorem C4_counterexample :
    decodeBlobResourceContents (.obj [("blob", .str "!!!"), ("uri", .str "file:///a")]) =
      .ok ⟨"!!!", none, "file:///a"⟩ := rfl

/-- C4 (amended): decode performs no base64 validation: any string value is
accepted for `blob` and `image_data`, decode succeeds, never eagerly decodes
the payload, and preserves the original encoded string unchanged. -/
theorem C4_no_base64_validation :
    (∀ b uri : String,
        decodeBlobResourceContents (.obj [("blob", .str b), ("uri", .str uri)]) =
          .ok ⟨b, none, uri⟩) ∧
    (∀ b mt uri : String,
        decodeBlobResourceContents
            (.obj [("blob", .str b), ("mime_type", .str mt), ("uri", .str uri)]) =
          .ok ⟨b, some mt, uri⟩) ∧
    (∀ d mt : String,
        decodeImageContent (.obj [("image_data", .str d), ("mime_type", .str mt)]) =
          .ok ⟨d, mt, none⟩) :=
  ⟨fun _ _ => rfl, fun _ _ _ => rfl, fun _ _ => rfl⟩

/-- C3 counterexample: encoding a `ServerCapabilities` whose optional fields
are all absent writes every key with an explicit `null` instead of omitting
it, and decode treats an explicit `null` exactly like an omitted key. -/
theorem C3_counterexample :
    encodeServerCapabilities ⟨none, none, none⟩ =
      .obj [("experimental", .null), ("tools", .null), ("prompts", .null)] ∧
    decodeServerCapabilities (.obj [("tools", .null)]) =
      decodeServerCapabilities (.obj []) :=
  ⟨rfl, rfl⟩

/-- C3 (amended): an absent optional field is encoded as its key with an
explicit JSON `null` (the key is not omitted), and decode maps both an
omitted key and an explicit `null` to the absent state. -/
theorem C3_null_for_absent :
    (∀ ex p, encodeServerCapabilities ⟨ex, none, p⟩ =
        .obj [("experimental", encodeOpt encodeMapMap ex), ("tools", .null),
              ("prompts", encodeOpt (fun l => .arr (l.map encodeResourceTemplate)) p)]) ∧
    (∀ content meta, encodeCallToolResult ⟨content, none, meta⟩ =
        .obj [("content", .arr (content.map encodeContentType)), ("is_error", .null),
              ("_meta", encodeOpt encodeValueMap meta)]) ∧
    (decodeServerCapabilities (.obj []) = .ok ⟨none, none, none⟩) ∧
    (decodeServerCapabilities (.obj [("tools", .null)]) = .ok ⟨none, none, none⟩) ∧
    (decodeCallToolResult (.obj [("content", .arr [])]) = .ok ⟨[], none, none⟩) ∧
    (decodeCallToolResult (.obj [("content", .arr []), ("is_error", .null)]) =
        .ok ⟨[], none, none⟩) :=
  ⟨fun _ _ => rfl, fun _ _ => rfl, rfl, rfl, rfl, rfl⟩

/-- C1 counterexample: two values that satisfy every required-field invariant
yet do not survive the round trip, because serde_json writes both a present
`Some(Value::Null)` `returns` and a present non-finite (NaN) `priority` as
`null`, which decodes back to the absent state. -/
theorem C1_counterexample :
    (decodeTool (encodeTool ⟨"t", "d", .obj [], some .null, none⟩) ≠
        .ok ⟨"t", "d", .obj [], some .null, none⟩) ∧
    (decodeAnnotations (encodeAnnotations ⟨none, some .nan⟩) ≠
        .ok ⟨none, some .nan⟩) := by
  constructor
  · intro h
    have h2 : decodeTool (encodeTool ⟨"t", "d", .obj [], some .null, none⟩) =
        .ok ⟨"t", "d", .obj [], none, none⟩ := rfl
    rw [h2] at h
    simp [Tool.mk.injEq] at h
  · intro h
    have h2 : decodeAnnotations (encodeAnnotations ⟨none, some .nan⟩) =
        .ok ⟨none, none⟩ := rfl
    rw [h2] at h
    simp [Annotations.mk.injEq] at h

/-- C1 (amended): decode(encode(x)) = x for every value satisfying the
required-field invariants, except for the two null-collapses the code forces:
a `Tool` whose `returns` is present with the JSON `null` value, and an
`Annotations` whose `priority` is present with a non-finite float (serde_json
writes NaN and the infinities as `null`), in both cases the field comes back
absent.  The round trip is unconditional for `Role`, `BlobResourceContents`,
`RootsCapability`, `ClientCapabilities`, `CallToolParams` and
`CallToolRequest`; for every other listed type it holds exactly when every
contained `Annotations`' present `priority` is finite and every contained
`Tool`'s present `returns` is not `null`. -/
theorem C1_roundtrip :
    (∀ x : Role, decodeRole (encodeRole x) = .ok x) ∧
    (∀ x : Annotations, x.priorityOk = true →
        decodeAnnotations (encodeAnnotations x) = .ok x) ∧
    (∀ x : Resource, x.roundOk = true → decodeResource (encodeResource x) = .ok x) ∧
    (∀ x : BlobResourceContents,
        decodeBlobResourceContents (encodeBlobResourceContents x) = .ok x) ∧
    (∀ x : TextContent, x.roundOk = true →
        decodeTextContent (encodeTextContent x) = .ok x) ∧
    (∀ x : ImageContent, x.roundOk = true →
        decodeImageContent (encodeImageContent x) = .ok x) ∧
    (∀ x : EmbeddedResource, x.roundOk = true →
        decodeEmbeddedResource (encodeEmbeddedResource x) = .ok x) ∧
    (∀ x : ContentType, x.roundOk = true →
        decodeContentType (encodeContentType x) = .ok x) ∧
    (∀ x : ResourceTemplate, x.roundOk = true →
        decodeResourceTemplate (encodeResourceTemplate x) = .ok x) ∧
    (∀ x : RootsCapability, decodeRootsCapability (encodeRootsCapability x) = .ok x) ∧
    (∀ x : ClientCapabilities, decodeClientCapabilities (encodeClientCapabilities x) = .ok x) ∧
    (∀ x : Root, x.roundOk = true → decodeRoot (encodeRoot x) = .ok x) ∧
    (∀ x : CallToolParams, decodeCallToolParams (encodeCallToolParams x) = .ok x) ∧
    (∀ x : CallToolRequest, decodeCallToolRequest (encodeCallToolRequest x) = .ok x) ∧
    (∀ x : CallToolResult, x.roundOk = true →
        decodeCallToolResult (encodeCallToolResult x) = .ok x) ∧
    (∀ x : Tool, x.roundOk = true → decodeTool (encodeTool x) = .ok x) ∧
    (∀ x : ServerCapabilities, x.roundOk = true →
        decodeServerCapabilities (encodeServerCapabilities x) = .ok x) ∧
    (∀ x : InitializeResult, x.roundOk = true →
        decodeInitializeResult (encodeInitializeResult x) = .ok x) :=
  ⟨roundtrip_role, roundtrip_annotations, roundtrip_resource,
   roundtrip_blobResourceContents, roundtrip_textContent, roundtrip_imageContent,
   roundtrip_embeddedResource, roundtrip_contentType, roundtrip_resourceTemplate,
   roundtrip_rootsCapability, roundtrip_clientCapabilities, roundtrip_root,
   roundtrip_callToolParams, roundtrip_callToolRequest, roundtrip_callToolResult,
   roundtrip_tool, roundtrip_serverCapabilities, roundtrip_initializeResult⟩

/-- Witness for C1: the round trip at a concrete `Annotations` with a
present finite priority, and at a concrete `Tool` with a present non-null
`returns` value. -/
theorem C1_witness :
    decodeAnnotations (encodeAnnotations ⟨some [.User], some (.finite (1/2))⟩) =
        .ok ⟨some [.User], some (.finite (1/2))⟩ ∧
    decodeTool (encodeTool ⟨"t", "d", .obj [], some (.obj []), none⟩) =
        .ok ⟨"t", "d", .obj [], some (.obj []), none⟩ :=
  ⟨C1_roundtrip.2.1 ⟨some [.User], some (.finite (1/2))⟩ rfl,
   C1_roundtrip.2.2.2.2.2.2.2.2.2.2.2.2.2.2.2.1
     ⟨"t", "d", .obj [], some (.obj []), none⟩ rfl⟩
